import Mathlib

/-!
Verification of the shelley conversation/tool engine against its source.

The development shallowly embeds the Go sources:
  * `claudetool/output_iframe.go` — the `output_iframe` tool (`outputIframeRun`,
    its input schema, and the `OutputIframeDisplay` UI payload);
  * `server/startup_hook.go` — `RunStartupHook` / `findStartupHook`, with the
    process environment (env vars, home directory, `os.Stat`, command
    execution) passed explicitly as an oracle record `HookEnv`;
  * `db/schema/011-add-startup-hook-message-type.sql` — the closed message
    `type` CHECK constraint of the `messages` table; the store's `Append`
    path itself is not in the sources and is modelled from the spec.

Concurrency note: appends to one conversation are serialized (single-writer
discipline per conversation, per the spec), so any concurrent execution of
appenders — in particular appenders to different conversations — linearizes
to some sequential trace of append requests.  The store theorems therefore
quantify over all traces `List AppendReq`, which covers every interleaving.
-/

namespace Shelley

/-! ### A small JSON value model

The tool receives its input as `json.RawMessage`; we model the parsed JSON
value directly. -/

inductive Json where
  | null : Json
  | bool : Bool → Json
  | num : Int → Json
  | str : String → Json
  | arr : List Json → Json
  | obj : List (String × Json) → Json

/-! ### The output_iframe tool (`claudetool/output_iframe.go`) -/

/-- Model of one `llm.Content` block as observed through the tool's tests:
a content block carrying a text payload. -/
structure ContentBlock where
  text : String

/-- `OutputIframeDisplay` from `claudetool/output_iframe.go`: the data passed
to the UI for rendering. -/
structure OutputIframeDisplay where
  type : String
  html : String
  title : String

/-- Model of `llm.ToolOut`: `LLMContent` (content re-entering model context),
`Display` (UI payload; `nil` in Go modelled as `none`, and specialised here to
the one display shape the embedded tool produces), and an optional `Error`
(modelled by its message string). -/
structure ToolOut where
  llmContent : List ContentBlock
  display : Option OutputIframeDisplay
  error : Option String

/-- Modelled from the spec: `llm.ErrorToolOut` (the `llm` package is not in
the sources) returns a `ToolOut` carrying the error, with no `Display`
produced (spec scenario B: missing required field ⇒ `Error` non-nil, no
`Display`). -/
def ErrorToolOut (e : String) : ToolOut :=
  { llmContent := [], display := none, error := some e }

/-- Modelled from the spec: `llm.ErrorfToolOut` formats a message and returns
an error-bearing `ToolOut` exactly like `ErrorToolOut`. -/
def ErrorfToolOut (e : String) : ToolOut :=
  ErrorToolOut e

/-- Modelled from the spec: `llm.TextContent` (the `llm` package is not in
the sources) wraps a string as a single text content block, as the tool's
test observes (`len(LLMContent) == 1 && LLMContent[0].Text == "displayed"`). -/
def TextContent (s : String) : List ContentBlock :=
  [{ text := s }]

/-- The unmarshalling target of `outputIframeRun`: the anonymous Go struct
`{ HTML string; Title string }` with json tags `html` / `title`. -/
structure IframeInput where
  html : String
  title : String

/-- Decoding one JSON value into a Go `string` field holding `cur`:
a JSON string replaces the field, JSON `null` leaves it unchanged, and any
other value is a type error (encoding/json `UnmarshalTypeError`). -/
def decodeStringInto (cur : String) (v : Json) : Except String String :=
  match v with
  | .str s => .ok s
  | .null => .ok cur
  | _ => .error "json: cannot unmarshal value into field of type string"

/-- One step of object decoding: route the key/value pair to the matching
struct field (keys are matched by their json tags `html` / `title`; Go also
falls back to ASCII case-insensitive matching, which never fires for the
exact lowercase tags used here).  A type error is saved (first error wins)
and decoding continues, as encoding/json does; unknown keys are ignored. -/
def iframeFieldStep (st : IframeInput × Option String) (kv : String × Json) :
    IframeInput × Option String :=
  if kv.1 = "html" then
    match decodeStringInto st.1.html kv.2 with
    | .ok s => ({ st.1 with html := s }, st.2)
    | .error e => (st.1, st.2 <|> some e)
  else if kv.1 = "title" then
    match decodeStringInto st.1.title kv.2 with
    | .ok s => ({ st.1 with title := s }, st.2)
    | .error e => (st.1, st.2 <|> some e)
  else
    st

/-- `json.Unmarshal` of the raw input into the `IframeInput` struct
(encoding/json semantics for this struct): a JSON object decodes field by
field starting from the zero value, `null` is a no-op, and any other
top-level value is a type error. -/
def unmarshalIframeInput (m : Json) : Except String IframeInput :=
  match m with
  | .null => .ok { html := "", title := "" }
  | .obj fields =>
    let st := fields.foldl iframeFieldStep ({ html := "", title := "" }, none)
    match st.2 with
    | some e => .error e
    | none => .ok st.1
  | _ => .error "json: cannot unmarshal value into Go struct"

/-- `outputIframeRun` from `claudetool/output_iframe.go`: unmarshal the
input; error out when unmarshalling fails or `html` is empty; otherwise
return `LLMContent = TextContent "displayed"` and the
`OutputIframeDisplay` payload. -/
def outputIframeRun (m : Json) : ToolOut :=
  match unmarshalIframeInput m with
  | .error e => ErrorToolOut e
  | .ok input =>
    if input.html = "" then
      ErrorfToolOut "html content is required"
    else
      { llmContent := TextContent "displayed"
      , display := some { type := "output_iframe", html := input.html, title := input.title }
      , error := none }

/-- Whether a JSON value is a string (for schema checking). -/
def isJsonString : Json → Bool
  | .str _ => true
  | _ => false

/-- `outputIframeInputSchema` from `claudetool/output_iframe.go` as a checker:
the input must be an object, the required property `html` must be present and
a string, and `title`, when present, must be a string. -/
def outputIframeSchemaAccepts (m : Json) : Bool :=
  match m with
  | .obj fields =>
    (match fields.lookup "html" with
     | some v => isJsonString v
     | none => false)
    && (match fields.lookup "title" with
        | some v => isJsonString v
        | none => true)
  | _ => false

/-- C4: invoking the output_iframe tool with `{html: "<h1>Hi</h1>"}` returns
`Error = nil`, `LLMContent = ["displayed"]`, and
`Display = {type: "output_iframe", html: "<h1>Hi</h1>"}` (with an empty,
omitted title). -/
theorem output_iframe_scenario_a :
    outputIframeRun (Json.obj [("html", Json.str "<h1>Hi</h1>")]) =
      { llmContent := [{ text := "displayed" }]
      , display := some { type := "output_iframe", html := "<h1>Hi</h1>", title := "" }
      , error := none } :=
  rfl

/-- C5: invoking the output_iframe tool with the empty object `{}` (missing
the required `html` field) returns a `ToolOut` whose `Error` is non-nil and
whose `Display` is absent. -/
theorem output_iframe_scenario_b :
    (outputIframeRun (Json.obj [])).error.isSome = true
    ∧ (outputIframeRun (Json.obj [])).display = none :=
  ⟨rfl, rfl⟩

/-- C9: the input `{html: ""}` satisfies the tool's declared JSON schema
(`html` present and a string), yet `outputIframeRun` returns a non-nil
error — schema validity does not guarantee a successful run. -/
theorem output_iframe_schema_accepts_empty_html :
    outputIframeSchemaAccepts (Json.obj [("html", Json.str "")]) = true
    ∧ (outputIframeRun (Json.obj [("html", Json.str "")])).error.isSome = true :=
  ⟨rfl, rfl⟩

/-- C10: for every non-empty html string `h` and any title string `t`, the
output_iframe tool returns `Error = nil`, `LLMContent = ["displayed"]`, and
`Display = {type: "output_iframe", html: h, title: t}` — the html is passed
through to the `Display` verbatim, with no sanitization, escaping, or
truncation. -/
theorem output_iframe_passthrough (h t : String) (hne : h ≠ "") :
    outputIframeRun (Json.obj [("html", Json.str h), ("title", Json.str t)]) =
      { llmContent := [{ text := "displayed" }]
      , display := some { type := "output_iframe", html := h, title := t }
      , error := none } := by
  have hu : unmarshalIframeInput (Json.obj [("html", Json.str h), ("title", Json.str t)]) =
      Except.ok { html := h, title := t } := rfl
  unfold outputIframeRun
  rw [hu]
  simp [hne, TextContent]

/-- Witness for C10 at a concrete non-empty html input. -/
theorem output_iframe_passthrough_witness :
    outputIframeRun (Json.obj [("html", Json.str "<b>x</b>"), ("title", Json.str "T")]) =
      { llmContent := [{ text := "displayed" }]
      , display := some { type := "output_iframe", html := "<b>x</b>", title := "T" }
      , error := none } :=
  output_iframe_passthrough "<b>x</b>" "T" (by decide)

/-! ### The session-start hook (`server/startup_hook.go`) -/

/-- `startupHookFilename` from `server/startup_hook.go`. -/
def startupHookFilename : String := "on-conversation-start"

/-- Model of Go `time.Second` in nanoseconds. -/
def timeSecond : Nat := 1000000000

/-- `startupHookTimeout = 5 * time.Second` from `server/startup_hook.go`. -/
def startupHookTimeout : Nat := 5 * timeSecond

/-- Rendering of a whole-second duration as Go `fmt`'s `%v` prints it
(`5 * time.Second` prints as `"5s"`). -/
def formatDuration (n : Nat) : String :=
  toString (n / timeSecond) ++ "s"

/-- Result of one external command execution
(`exec.CommandContext` + `CombinedOutput`): the combined output captured so
far, whether the context deadline fired (`ctx.Err() == DeadlineExceeded`),
and the command error, if any. -/
structure ExecResult where
  output : String
  deadlineExceeded : Bool
  execErr : Option String

/-- Modelled from the spec: `exec.CommandContext`'s kill-on-cancel and
`CombinedOutput`'s wait (Go standard library, not in the sources) guarantee
that by the time a result is returned the spawned process has exited — on
timeout it is force-terminated — so no process is left running afterwards. -/
def processLeftRunningAfter (_ : ExecResult) : Bool := false

/-- The process environment `RunStartupHook` reads, passed explicitly:
the `SHELLEY_DISABLE_STARTUP_HOOK` variable (`""` when unset),
`os.UserHomeDir` (`none` on error), `os.Stat` as the file's permission bits
(`none` when stat fails, e.g. the file is absent), and command execution
keyed by path and working directory. -/
structure HookEnv where
  disableStartupHook : String
  userHomeDir : Option String
  statMode : String → Option Nat
  exec : String → String → ExecResult

/-- `filepath.Join(home, ".config", "shelley", startupHookFilename)`. -/
def hookPathOf (home : String) : String :=
  home ++ "/.config/shelley/" ++ startupHookFilename

/-- `StartupHookResult` from `server/startup_hook.go`. -/
structure StartupHookResult where
  output : String
  error : Option String

/-- `findStartupHook` from `server/startup_hook.go`: returns the path to
`~/.config/shelley/on-conversation-start` when it stats successfully,
and `""` otherwise (also on `UserHomeDir` error). -/
def findStartupHook (env : HookEnv) : String :=
  match env.userHomeDir with
  | none => ""
  | some home =>
    let hookPath := hookPathOf home
    if (env.statMode hookPath).isSome then hookPath else ""

/-- `RunStartupHook` from `server/startup_hook.go`: returns `none` when
disabled or when no hook exists; errors when the hook cannot be stat-ed or is
not executable (no execute bit in `0o111`); otherwise runs the hook with the
5-second deadline, reporting timeout (checked first), failure, or success,
always with the captured combined output. -/
def RunStartupHook (env : HookEnv) (cwd : String) : Option StartupHookResult :=
  if env.disableStartupHook ≠ "" then
    none
  else
    let hookPath := findStartupHook env
    if hookPath = "" then
      none
    else
      match env.statMode hookPath with
      | none => some { output := "", error := some "failed to stat hook" }
      | some mode =>
        if mode &&& 0o111 = 0 then
          some { output := "", error := some ("hook is not executable: " ++ hookPath) }
        else
          let r := env.exec hookPath cwd
          if r.deadlineExceeded then
            some { output := r.output
                 , error := some ("hook timed out after " ++ formatDuration startupHookTimeout) }
          else
            match r.execErr with
            | some e => some { output := r.output, error := some ("hook failed: " ++ e) }
            | none => some { output := r.output, error := none }

/-! Helper lemmas for the startup hook theorems. -/

lemma hookPathOf_ne_empty (home : String) : hookPathOf home ≠ "" := by
  intro h
  have hlen := congrArg String.length h
  simp [hookPathOf, String.length_append, startupHookFilename] at hlen
  exact absurd hlen.2 (by decide)

lemma runStartupHook_eval (env : HookEnv) (cwd home : String) (m : Nat)
    (hdis : env.disableStartupHook = "")
    (hhome : env.userHomeDir = some home)
    (hstat : env.statMode (hookPathOf home) = some m) :
    RunStartupHook env cwd =
      if m &&& 0o111 = 0 then
        some { output := "", error := some ("hook is not executable: " ++ hookPathOf home) }
      else
        let r := env.exec (hookPathOf home) cwd
        if r.deadlineExceeded then
          some { output := r.output
               , error := some ("hook timed out after " ++ formatDuration startupHookTimeout) }
        else
          match r.execErr with
          | some e => some { output := r.output, error := some ("hook failed: " ++ e) }
          | none => some { output := r.output, error := none } := by
  have hfind : findStartupHook env = hookPathOf home := by
    simp [findStartupHook, hhome, hstat]
  simp [RunStartupHook, hdis, hfind, hookPathOf_ne_empty home, hstat]

lemma hook_failed_msg_ne (e p : String) :
    ("hook failed: " ++ e) ≠ ("hook is not executable: " ++ p) := by
  intro h
  have hd : ("hook failed: ").data ++ e.data =
      ("hook is not executable: ").data ++ p.data := by
    have hd0 := congrArg String.data h
    simp only [String.data_append] at hd0
    exact hd0
  have h5 : (("hook failed: ").data ++ e.data)[5]? =
      (("hook is not executable: ").data ++ p.data)[5]? := by
    rw [hd]
  rw [List.getElem?_append_left (by decide), List.getElem?_append_left (by decide)] at h5
  exact absurd h5 (by decide)

lemma timeout_msg_ne (p : String) :
    ("hook timed out after " ++ formatDuration startupHookTimeout) ≠
      ("hook is not executable: " ++ p) := by
  intro h
  have hlen := congrArg String.length h
  rw [String.length_append, String.length_append] at hlen
  have h1 : ("hook timed out after ").length = 21 := by decide
  have h2 : (formatDuration startupHookTimeout).length = 2 := by decide
  have h3 : ("hook is not executable: ").length = 24 := by decide
  rw [h1, h2, h3] at hlen
  omega

/-- C3: when the hook resolves, is executable, and its execution outlives the
deadline, `RunStartupHook` returns the partial output captured so far with a
`Timeout` error; the timeout is the fixed `5 * time.Second` (printed `"5s"`);
and no hook process is left running after the call returns. -/
theorem run_startup_hook_timeout (env : HookEnv) (cwd home : String) (m : Nat)
    (hdis : env.disableStartupHook = "")
    (hhome : env.userHomeDir = some home)
    (hstat : env.statMode (hookPathOf home) = some m)
    (hexe : m &&& 0o111 ≠ 0)
    (hto : (env.exec (hookPathOf home) cwd).deadlineExceeded = true) :
    RunStartupHook env cwd =
      some { output := (env.exec (hookPathOf home) cwd).output
           , error := some ("hook timed out after " ++ formatDuration startupHookTimeout) }
    ∧ startupHookTimeout = 5 * timeSecond
    ∧ formatDuration startupHookTimeout = "5s"
    ∧ processLeftRunningAfter (env.exec (hookPathOf home) cwd) = false := by
  refine ⟨?_, rfl, rfl, rfl⟩
  rw [runStartupHook_eval env cwd home m hdis hhome hstat]
  simp [hexe, hto]

/-- Concrete environment exercising the timeout path. -/
def timeoutEnv : HookEnv :=
  { disableStartupHook := ""
  , userHomeDir := some "/home/alice"
  , statMode := fun p => if p = hookPathOf "/home/alice" then some 0o755 else none
  , exec := fun _ _ =>
      { output := "partial output", deadlineExceeded := true, execErr := some "killed" } }

/-- Witness for C3 at a concrete environment. -/
theorem run_startup_hook_timeout_witness :
    RunStartupHook timeoutEnv "/work" =
      some { output := "partial output", error := some "hook timed out after 5s" } := by
  have h := run_startup_hook_timeout timeoutEnv "/work" "/home/alice" 0o755
    rfl rfl (by simp [timeoutEnv]) (by decide) rfl
  simpa using h.1

/-- C6: with the hook present at the resolved path (stat succeeds with mode
`m`), `RunStartupHook` returns the `"hook is not executable"` error result
exactly when no execute bit of `0o111` is set in `m`; and in that case the
result is the same for every execution oracle — the hook process is never
started. -/
theorem run_startup_hook_not_executable (env : HookEnv) (cwd home : String) (m : Nat)
    (hdis : env.disableStartupHook = "")
    (hhome : env.userHomeDir = some home)
    (hstat : env.statMode (hookPathOf home) = some m) :
    (RunStartupHook env cwd =
        some { output := "", error := some ("hook is not executable: " ++ hookPathOf home) }
      ↔ m &&& 0o111 = 0)
    ∧ (m &&& 0o111 = 0 →
        ∀ ex : String → String → ExecResult,
          RunStartupHook { env with exec := ex } cwd =
            some { output := ""
                 , error := some ("hook is not executable: " ++ hookPathOf home) }) := by
  have heval := runStartupHook_eval env cwd home m hdis hhome hstat
  constructor
  · by_cases hb : m &&& 0o111 = 0
    · refine iff_of_true ?_ hb
      rw [heval]
      simp [hb]
    · refine iff_of_false ?_ hb
      rw [heval]
      simp only [if_neg hb]
      rcases hde : (env.exec (hookPathOf home) cwd).deadlineExceeded with _ | _
      · simp only [hde, if_neg Bool.false_ne_true]
        rcases herr : (env.exec (hookPathOf home) cwd).execErr with _ | e
        · simp
        · simp [hook_failed_msg_ne e (hookPathOf home)]
      · simp [hde, timeout_msg_ne (hookPathOf home)]
  · intro hb ex
    have heval2 := runStartupHook_eval { env with exec := ex } cwd home m hdis hhome hstat
    rw [heval2]
    simp [hb]

/-- Concrete environment with a present but non-executable hook. -/
def notExecEnv : HookEnv :=
  { disableStartupHook := ""
  , userHomeDir := some "/home/alice"
  , statMode := fun p => if p = hookPathOf "/home/alice" then some 0o644 else none
  , exec := fun _ _ => { output := "", deadlineExceeded := false, execErr := none } }

/-- Witness for C6 at a concrete environment. -/
theorem run_startup_hook_not_executable_witness :
    RunStartupHook notExecEnv "/work" =
      some { output := ""
           , error := some ("hook is not executable: " ++ hookPathOf "/home/alice") } :=
  (run_startup_hook_not_executable notExecEnv "/work" "/home/alice" 0o644
    rfl rfl (by simp [notExecEnv])).1.mpr (by decide)

/-- C7: when no hook file stats successfully at the resolved lookup path
(including when the home directory cannot be resolved), `RunStartupHook`
returns `none` — no hook runs and no error is reported. -/
theorem run_startup_hook_absent (env : HookEnv) (cwd : String)
    (hdis : env.disableStartupHook = "")
    (habsent : ∀ home, env.userHomeDir = some home →
      env.statMode (hookPathOf home) = none) :
    RunStartupHook env cwd = none := by
  rcases hh : env.userHomeDir with _ | home
  · simp [RunStartupHook, findStartupHook, hdis, hh]
  · simp [RunStartupHook, findStartupHook, hdis, hh, habsent home hh]

/-- Concrete environment with no hook file anywhere. -/
def absentEnv : HookEnv :=
  { disableStartupHook := ""
  , userHomeDir := some "/home/alice"
  , statMode := fun _ => none
  , exec := fun _ _ => { output := "", deadlineExceeded := false, execErr := none } }

/-- Witness for C7 at a concrete environment. -/
theorem run_startup_hook_absent_witness :
    RunStartupHook absentEnv "/work" = none :=
  run_startup_hook_absent absentEnv "/work" rfl (fun _ _ => rfl)

/-- C8: when `SHELLEY_DISABLE_STARTUP_HOOK` is set non-empty,
`RunStartupHook` returns `none` for every environment and working directory —
in particular regardless of whether a hook file exists, what mode it has, or
what executing it would produce. -/
theorem run_startup_hook_disabled (env : HookEnv) (cwd : String)
    (h : env.disableStartupHook ≠ "") :
    RunStartupHook env cwd = none := by
  simp [RunStartupHook, h]

/-- Concrete disabled environment in which the hook exists and is
executable. -/
def disabledEnv : HookEnv :=
  { disableStartupHook := "1"
  , userHomeDir := some "/home/alice"
  , statMode := fun _ => some 0o755
  , exec := fun _ _ => { output := "ran", deadlineExceeded := false, execErr := none } }

/-- Witness for C8 at a concrete environment. -/
theorem run_startup_hook_disabled_witness :
    RunStartupHook disabledEnv "/work" = none :=
  run_startup_hook_disabled disabledEnv "/work" (by decide)

/-! ### The conversation store
(`db/schema/011-add-startup-hook-message-type.sql`)

The CHECK constraint on `messages.type` is taken from the schema file.  The
`Append` operation itself (sequence assignment and insertion) is not in the
sources; it is modelled from the spec below. -/

/-- The closed message type set from the `messages` table CHECK constraint in
`db/schema/011-add-startup-hook-message-type.sql`. -/
def allowedMessageTypes : List String :=
  ["user", "agent", "tool", "system", "error", "gitinfo", "startup-hook"]

/-- The CHECK constraint `type IN (...)` as a predicate. -/
def messageTypeCheck (t : String) : Bool :=
  allowedMessageTypes.contains t

/-- One persisted row of the `messages` table (the columns the claims are
about). -/
structure StoreMessage where
  messageId : String
  conversationId : String
  sequenceId : Nat
  type : String

/-- An append request: the caller-supplied part of a message. -/
structure AppendReq where
  conversationId : String
  messageId : String
  type : String

/-- The persisted log, in order of successful appends. -/
abbrev MessageLog := List StoreMessage

/-- The messages of one conversation, in append order. -/
def msgsOf (log : MessageLog) (c : String) : List StoreMessage :=
  log.filter (fun msg => msg.conversationId == c)

/-- Errors of the modelled store. -/
inductive StoreError where
  | constraintViolation

/-- Modelled from the spec: the next `sequence_id` for a conversation under
the single-writer-per-conversation discipline — one more than the number of
messages the conversation already holds (so the ids are `{1..N}`). -/
def nextSequenceId (log : MessageLog) (c : String) : Nat :=
  (msgsOf log c).length + 1

/-- Modelled from the spec: the Conversation Store `Append` — not present in
the sources, which contain only the `messages` schema.  It enforces the
schema's CHECK constraint on `type`, failing with `ConstraintViolation` and
persisting nothing when the type is outside the closed set, and otherwise
atomically assigns the next `sequence_id` and appends the row. -/
def Append (log : MessageLog) (r : AppendReq) : Except StoreError MessageLog :=
  if messageTypeCheck r.type then
    .ok (log ++ [{ messageId := r.messageId
                 , conversationId := r.conversationId
                 , sequenceId := nextSequenceId log r.conversationId
                 , type := r.type }])
  else
    .error .constraintViolation

/-- The state after one append request: unchanged when the append fails. -/
def applyAppend (log : MessageLog) (r : AppendReq) : MessageLog :=
  match Append log r with
  | .ok log2 => log2
  | .error _ => log

/-- Execute a trace of append requests.  Appends to one conversation are
serialized, so every concurrent execution (in particular with appenders to
different conversations running in parallel) linearizes to such a trace. -/
def runAppends (log : MessageLog) (rs : List AppendReq) : MessageLog :=
  rs.foldl applyAppend log

/-- The per-conversation sequence-id invariant: each conversation's ids are
exactly `1, 2, ..., N` in order. -/
def SeqInv (log : MessageLog) : Prop :=
  ∀ c, (msgsOf log c).map (fun msg => msg.sequenceId) =
    List.range' 1 (msgsOf log c).length

lemma seqInv_nil : SeqInv [] := by
  intro c
  simp [msgsOf]

lemma msgsOf_append (log : MessageLog) (msg : StoreMessage) (c : String) :
    msgsOf (log ++ [msg]) c =
      msgsOf log c ++ (if msg.conversationId == c then [msg] else []) := by
  simp only [msgsOf, List.filter_append, List.filter_cons, List.filter_nil]

lemma seqInv_applyAppend (log : MessageLog) (r : AppendReq) (hinv : SeqInv log) :
    SeqInv (applyAppend log r) := by
  unfold applyAppend Append
  by_cases hck : messageTypeCheck r.type
  · simp only [hck, if_true]
    intro c
    rw [msgsOf_append]
    by_cases hc : (r.conversationId == c) = true
    · have hceq : r.conversationId = c := eq_of_beq hc
      simp only [hc, if_true]
      rw [List.map_append, List.length_append, hinv c]
      simp only [List.map_cons, List.map_nil, List.length_cons, List.length_nil]
      rw [List.range'_concat]
      simp [nextSequenceId, hceq, Nat.add_comm]
    · simp only [hc]
      simpa using hinv c
  · simp only [hck, if_false]
    exact hinv

lemma seqInv_runAppends (rs : List AppendReq) (log : MessageLog)
    (hinv : SeqInv log) : SeqInv (runAppends log rs) := by
  induction rs generalizing log with
  | nil => exact hinv
  | cons r rs ih => exact ih _ (seqInv_applyAppend log r hinv)

lemma msgsOf_applyAppend_length (log : MessageLog) (r : AppendReq) (c : String) :
    (msgsOf (applyAppend log r) c).length =
      (msgsOf log c).length +
        (if r.conversationId == c && messageTypeCheck r.type then 1 else 0) := by
  unfold applyAppend Append
  by_cases hck : messageTypeCheck r.type <;>
    by_cases hc : (r.conversationId == c) = true <;>
      simp [hck, hc, msgsOf_append]

lemma runAppends_msgsOf_length (rs : List AppendReq) (log : MessageLog) (c : String) :
    (msgsOf (runAppends log rs) c).length =
      (msgsOf log c).length +
        (rs.filter (fun r => r.conversationId == c && messageTypeCheck r.type)).length := by
  induction rs generalizing log with
  | nil => simp [runAppends]
  | cons r rs ih =>
    show (msgsOf (runAppends (applyAppend log r) rs) c).length = _
    rw [ih, msgsOf_applyAppend_length, List.filter_cons]
    by_cases h : (r.conversationId == c && messageTypeCheck r.type) = true
    · simp [h]
      omega
    · simp [h]

lemma types_valid_applyAppend (log : MessageLog) (r : AppendReq)
    (h : ∀ msg ∈ log, messageTypeCheck msg.type = true) :
    ∀ msg ∈ applyAppend log r, messageTypeCheck msg.type = true := by
  unfold applyAppend Append
  by_cases hck : messageTypeCheck r.type
  · simp only [hck, if_true]
    intro msg hmsg
    rcases List.mem_append.mp hmsg with hmem | hmem
    · exact h msg hmem
    · rcases List.mem_singleton.mp hmem with rfl
      exact hck
  · simp only [hck, if_false]
    exact h

lemma types_valid_runAppends (rs : List AppendReq) (log : MessageLog)
    (h : ∀ msg ∈ log, messageTypeCheck msg.type = true) :
    ∀ msg ∈ runAppends log rs, messageTypeCheck msg.type = true := by
  induction rs generalizing log with
  | nil => exact h
  | cons r rs ih => exact ih _ (types_valid_applyAppend log r h)

/-- C1: after executing any trace of append requests (covering every
interleaving of concurrent appenders, since appends are serialized per
conversation), each conversation's persisted `sequence_id`s are exactly
`1, 2, ..., N` in order — contiguous, increasing, no gaps, no duplicates —
where `N` is the number of (valid-typed) appends to that conversation. -/
theorem sequence_ids_contiguous (rs : List AppendReq) (c : String) :
    (msgsOf (runAppends [] rs) c).map (fun msg => msg.sequenceId) =
        List.range' 1 (msgsOf (runAppends [] rs) c).length
    ∧ (msgsOf (runAppends [] rs) c).length =
        (rs.filter (fun r => r.conversationId == c && messageTypeCheck r.type)).length := by
  refine ⟨seqInv_runAppends rs [] seqInv_nil c, ?_⟩
  have h := runAppends_msgsOf_length rs [] c
  simpa [msgsOf] using h

/-- C2: an `Append` whose message type is outside the closed set
`{user, agent, tool, system, error, gitinfo, startup-hook}` fails with
`ConstraintViolation` and persists nothing (the log is unchanged), and
consequently every message in a log built by any trace of appends has a type
inside the closed set. -/
theorem append_type_closed (log : MessageLog) (r : AppendReq)
    (h : messageTypeCheck r.type = false) :
    Append log r = Except.error StoreError.constraintViolation
    ∧ applyAppend log r = log
    ∧ ∀ (rs : List AppendReq), ∀ msg ∈ runAppends [] rs,
        msg.type ∈ allowedMessageTypes := by
  refine ⟨?_, ?_, ?_⟩
  · simp [Append, h]
  · simp [applyAppend, Append, h]
  · intro rs msg hmsg
    have hv := types_valid_runAppends rs [] (by simp) msg hmsg
    simpa [messageTypeCheck, List.contains_iff_exists_mem_beq, eq_comm] using hv

/-- Witness for C2 at a concrete out-of-set type. -/
theorem append_type_closed_witness :
    Append [] { conversationId := "c1", messageId := "m1", type := "bogus" } =
        Except.error StoreError.constraintViolation
    ∧ applyAppend [] { conversationId := "c1", messageId := "m1", type := "bogus" } = [] := by
  have h := append_type_closed []
    { conversationId := "c1", messageId := "m1", type := "bogus" } (by decide)
  exact ⟨h.1, h.2.1⟩

end Shelley
